import Mathlib

/-!
Verification development for the UDP NAT session manager
(`src/clash/src/app/nat_manager.rs`).

The manager's state and operations are embedded shallowly:

* the flow table (`SessionMap = HashMap<DatagramSource, (Sender<UdpPacket>,
  oneshot::Sender<bool>, Instant)>`) becomes an association list with
  distinct keys;
* the capacity-64 uplink channel becomes the list of packets pending in it;
* the one-shot shutdown signal becomes an identifying number, and firing a
  signal appends that number to a list of fired signals;
* `Instant` timestamps become natural numbers counting milliseconds, with
  `Duration::as_secs` as division by 1000 and `Instant::duration_since` as
  truncated subtraction (tokio's `duration_since` saturates to zero);
* each `async fn` becomes a state-transformation function describing the
  mutations its statements perform; in addition, `NatManager::send` gets a
  lock-aware model (`NatManager.sendRun`) that tracks the lifetime of the
  `MutexGuard` taken at its entry across the nested re-acquisition of the
  same mutex inside `NatManager::_send`, since tokio's `Mutex` is not
  reentrant.

The auxiliary types `SocksAddr`, `DatagramSource`, `Session` and the
dispatcher live in modules of the repository outside the sources at hand
(`crate::session`, `crate::app::dispatcher`); they are modelled from the
spec where marked.
-/

set_option autoImplicit false

namespace NatMgr

/-- Modelled from the spec: a concrete socket address, an (IP, port) pair
(the `std::net::SocketAddr` carried by `DatagramSource`). -/
structure SocketAddr where
  ip : Nat
  port : Nat
deriving DecidableEq, Repr

/-- Modelled from the spec: an endpoint is either (IP, port) or
(hostname, port) (the `SocksAddr` of `crate::session`). -/
inductive SocksAddr where
  | ip (addr : SocketAddr)
  | domain (host : String) (port : Nat)
deriving DecidableEq, Repr

/-- `SocksAddr::from(raddr.address)`: wrap a concrete socket address. -/
def SocksAddr.ofSocketAddr (a : SocketAddr) : SocksAddr :=
  SocksAddr.ip a

/-- Modelled from the spec: the flow key is the client-visible source
endpoint plus the inbound-listener identity (the `DatagramSource` of
`crate::session`). -/
structure DatagramSource where
  address : SocketAddr
  link : Nat
deriving DecidableEq, Repr

/-- Modelled from the spec: the network of a session, UDP for every session
the manager synthesizes. -/
inductive Network where
  | Tcp
  | Udp
deriving DecidableEq, Repr

/-- Modelled from the spec: the proxy-selection context handed to the
dispatcher; only the fields the manager sets when it synthesizes a session
(`network`, `source`, `destination`) are modelled, the rest is
`..Default::default()`. -/
structure Session where
  network : Network
  source : SocketAddr
  destination : SocksAddr
deriving DecidableEq, Repr

/-- `UdpPacket`: payload bytes plus source and destination endpoints. -/
structure UdpPacket where
  data : List Nat
  src_addr : SocksAddr
  dst_addr : SocksAddr
deriving DecidableEq, Repr

/-- `UdpPacket::new(data, src_addr, dst_addr)`: plain construction, no
validation of the payload length. -/
def UdpPacket.new (data : List Nat) (src_addr dst_addr : SocksAddr) : UdpPacket :=
  { data := data, src_addr := src_addr, dst_addr := dst_addr }

/-- One flow-table entry, the tuple
`(Sender<UdpPacket>, oneshot::Sender<bool>, Instant)`: the contents of the
capacity-64 uplink channel, the identity of the entry's one-shot shutdown
signal, and the last-activity instant in milliseconds. -/
structure SessionEntry where
  queue : List UdpPacket
  shutdownId : Nat
  lastActivity : Nat
deriving DecidableEq, Repr

/-- The flow table `SessionMap`, a `HashMap` embedded as an association
list; the code keeps its keys distinct (`NodupKeys`). -/
abbrev SessionMap := List (DatagramSource × SessionEntry)

/-- Keys of the flow table. -/
def keysOf (m : SessionMap) : List DatagramSource :=
  m.map (fun kv => kv.1)

/-- The `HashMap` invariant: at most one entry per key. -/
def NodupKeys (m : SessionMap) : Prop :=
  (keysOf m).Nodup

/-- `HashMap::get` / `get_mut`: the entry stored at a key. -/
def lookupKey : SessionMap → DatagramSource → Option SessionEntry
  | [], _ => none
  | kv :: rest, k => if kv.1 = k then some kv.2 else lookupKey rest k

/-- `HashMap::contains_key`. -/
def containsKey (m : SessionMap) (k : DatagramSource) : Bool :=
  (lookupKey m k).isSome

/-- In-place mutation through `get_mut`: replace the entry stored at a key
(the identity when the key is absent). -/
def setEntry : SessionMap → DatagramSource → SessionEntry → SessionMap
  | [], _, _ => []
  | kv :: rest, k, e => if kv.1 = k then (k, e) :: rest else kv :: setEntry rest k e

/-- `HashMap::remove`: drop the entry stored at a key. -/
def removeKey : SessionMap → DatagramSource → SessionMap
  | [], _ => []
  | kv :: rest, k => if kv.1 = k then rest else kv :: removeKey rest k

/-- `HashMap::insert`: store an entry at a key, replacing any present one. -/
def insertEntry (m : SessionMap) (k : DatagramSource) (e : SessionEntry) : SessionMap :=
  if containsKey m k then setEntry m k e else (k, e) :: m

/-- `const UDP_SESSION_TIMEOUT: u64 = 30;` (seconds). -/
def UDP_SESSION_TIMEOUT : Nat := 30

/-- `const UDP_SESSION_CHECK_INTERVAL: u64 = 10;` (seconds). -/
def UDP_SESSION_CHECK_INTERVAL : Nat := 10

/-- `Duration::as_secs` on a duration counted in milliseconds. -/
def asSecs (millis : Nat) : Nat := millis / 1000

/-- The capacity of the uplink channel: `mpsc::channel(64)`. -/
def uplinkCapacity : Nat := 64

/-- `Sender::try_send` on the bounded uplink channel: enqueue when fewer
than 64 packets are pending, otherwise fail without blocking (the `Err` is
discarded by the caller). Returns the updated entry and whether the packet
was enqueued. -/
def SessionEntry.trySend (e : SessionEntry) (pkt : UdpPacket) : SessionEntry × Bool :=
  if e.queue.length < uplinkCapacity then
    ({ e with queue := e.queue ++ [pkt] }, true)
  else
    (e, false)

/-- Outcome of an admission attempt: the packet was enqueued on the uplink
queue, dropped (`try_send` failed), or there was no entry for the key. -/
inductive SendOutcome where
  | enqueued
  | dropped
  | noEntry
deriving DecidableEq, Repr

/-- The state of a `NatManager` together with the observable effects of its
operations: the flow table, whether the boxed reaper future is still inside
the `Mutex<Option<BoxFuture>>` (i.e. not yet `take()`n), how many times the
reaper future has been `tokio::spawn`ed, how many dispatch attempts
(`dispatch_datagram` calls by spawned flow workers) have been initiated, and
a counter supplying fresh shutdown-signal identities. -/
structure NatState where
  sessions : SessionMap
  timeoutCheckTaskPending : Bool
  reaperSpawned : Nat
  dispatchAttempts : Nat
  nextShutdownId : Nat
deriving DecidableEq, Repr

namespace NatManager

/-- `NatManager::new`: empty flow table, the reaper future constructed and
stored (not yet spawned). -/
def new : NatState :=
  { sessions := []
    timeoutCheckTaskPending := true
    reaperSpawned := 0
    dispatchAttempts := 0
    nextShutdownId := 0 }

/-- `NatManager::_send` (source lines 171–176): look the key up; if an entry
exists, `try_send` the packet on its uplink channel, discarding a full-queue
error, and then stamp `last_activity` with the current instant (also after a
drop); if no entry exists, do nothing. -/
def _send (m : SessionMap) (key : DatagramSource) (pkt : UdpPacket) (now : Nat) :
    SessionMap × SendOutcome :=
  match lookupKey m key with
  | none => (m, SendOutcome.noEntry)
  | some e =>
      let se := e.trySend pkt
      (setEntry m key { se.1 with lastActivity := now },
        if se.2 then SendOutcome.enqueued else SendOutcome.dropped)

/-- `sess.cloned().unwrap_or(..)` in `NatManager::send`: when no session
hint is given, synthesize one from the flow key's client address and the
packet's destination, with network UDP. -/
def synthesizeSession (sess : Option Session) (key : DatagramSource) (pkt : UdpPacket) :
    Session :=
  sess.getD
    { network := Network.Udp
      source := key.address
      destination := pkt.dst_addr }

/-- `NatManager::add_session` (source lines 94–170), as the mutations its
statements perform: `take()` the stored reaper future and spawn it if it is
still present; create the capacity-64 uplink channel and the one-shot
shutdown signal; insert the new entry (empty queue, fresh shutdown id,
`Instant::now()`) under the caller's guard; spawn the flow worker, whose
first act is a `dispatch_datagram` attempt. -/
def add_session (st : NatState) (key : DatagramSource) (now : Nat) : NatState :=
  let st1 :=
    if st.timeoutCheckTaskPending then
      { st with timeoutCheckTaskPending := false, reaperSpawned := st.reaperSpawned + 1 }
    else st
  { st1 with
    sessions :=
      insertEntry st1.sessions key
        { queue := [], shutdownId := st1.nextShutdownId, lastActivity := now }
    nextShutdownId := st1.nextShutdownId + 1
    dispatchAttempts := st1.dispatchAttempts + 1 }

/-- `NatManager::send` (source lines 68–92) as the state transformation its
statements perform when every lock acquisition is granted: under the table
lock, if the key is present go to `_send`; otherwise synthesize a session,
`add_session`, and deliver the initial packet through the same `_send`
path. -/
def send (st : NatState) (sess : Option Session) (key : DatagramSource)
    (pkt : UdpPacket) (now : Nat) : NatState × SendOutcome :=
  if containsKey st.sessions key then
    let r := _send st.sessions key pkt now
    ({ st with sessions := r.1 }, r.2)
  else
    let _synth := synthesizeSession sess key pkt
    let st1 := add_session st key now
    let r := _send st1.sessions key pkt now
    ({ st1 with sessions := r.1 }, r.2)

/-- Awaiting `lock()` on a tokio `Mutex` that the awaiting task itself
already holds: tokio mutexes are not reentrant, so the acquisition is never
granted and the await never completes (`none`). -/
def lockAcquire (heldBySameTask : Bool) : Option Unit :=
  if heldBySameTask then none else some ()

/-- `NatManager::send` as executed: the `MutexGuard` taken at entry (line
75) has a `Drop` impl and lives until the function returns, so it is still
held when `_send` (line 77 or line 91) re-awaits `self.sessions.lock()` at
line 172. `none` means some await in the body never completes. -/
def sendRun (st : NatState) (sess : Option Session) (key : DatagramSource)
    (pkt : UdpPacket) (now : Nat) : Option (NatState × SendOutcome) := do
  let _ ← lockAcquire false
  if containsKey st.sessions key then
    let _ ← lockAcquire true
    let r := _send st.sessions key pkt now
    pure ({ st with sessions := r.1 }, r.2)
  else
    let _synth := synthesizeSession sess key pkt
    let st1 := add_session st key now
    let _ ← lockAcquire true
    let r := _send st1.sessions key pkt now
    pure ({ st1 with sessions := r.1 }, r.2)

/-- The sweep's staleness test (source line 49):
`now.duration_since(val.2).as_secs() >= UDP_SESSION_TIMEOUT`. -/
def isStale (now : Nat) (e : SessionEntry) : Bool :=
  UDP_SESSION_TIMEOUT ≤ asSecs (now - e.lastActivity)

/-- The sweep's first loop (source lines 47–52): collect into `to_remove`
the keys of all entries idle for at least the session timeout. -/
def sweepToRemove (m : SessionMap) (now : Nat) : List DatagramSource :=
  (m.filter (fun kv => isStale now kv.2)).map (fun kv => kv.1)

/-- The sweep's second loop (source lines 53–57): for each collected key,
`remove` the entry and, when one was present, fire its shutdown signal —
`let _ = sess.1.send(true)` discards a failure to fire. Returns the table
and the accumulated list of fired shutdown-signal identities. -/
def sweepRemoveFired : List DatagramSource → SessionMap → List Nat → SessionMap × List Nat
  | [], m, fired => (m, fired)
  | k :: rest, m, fired =>
      match lookupKey m k with
      | some e => sweepRemoveFired rest (removeKey m k) (fired ++ [e.shutdownId])
      | none => sweepRemoveFired rest m fired

/-- One execution of the reaper body (source lines 45–57): under the table
lock, snapshot `now`, collect the stale keys, then remove them and fire
their shutdown signals. -/
def timeoutCheckSweep (m : SessionMap) (fired : List Nat) (now : Nat) :
    SessionMap × List Nat :=
  sweepRemoveFired (sweepToRemove m now) m fired

/-- An action the reaper future performs. -/
inductive ReaperAction where
  | sweep
  | sleepSecs (n : Nat)
deriving DecidableEq, Repr

/-- The complete sequence of actions performed by the future built in
`NatManager::new` (source lines 44–59) before it completes: the `async move`
block runs one sweep, one 10-second sleep, and then ends — there is no loop
around the body. -/
def timeoutCheckTaskActions : List ReaperAction :=
  [ReaperAction.sweep, ReaperAction.sleepSecs UDP_SESSION_CHECK_INTERVAL]

/-- `let mut buf = vec![0u8; 1500 * 2]`: the downlink receive buffer size
(source line 125). -/
def downlinkBufSize : Nat := 1500 * 2

/-- One iteration of the downlink pump after `recv_from` succeeded with
`(n, addr)` (source lines 131–147): build a packet from the first `n` buffer
bytes with source `addr` and destination the client endpoint of the flow
key; await a send on the client sink and break out of the loop when it
fails; on success, re-read the entry under the table lock and stamp
`last_activity` — a no-op when the entry has been removed in the interim.
Returns the packet handed to the sink, the table, and whether the loop
continues. -/
def downlinkIteration (buf : List Nat) (n : Nat) (addr : SocksAddr)
    (raddr : DatagramSource) (m : SessionMap) (sinkSendOk : Bool) (now : Nat) :
    UdpPacket × SessionMap × Bool :=
  let packet := UdpPacket.new (buf.take n) addr (SocksAddr.ofSocketAddr raddr.address)
  if sinkSendOk then
    let m1 :=
      match lookupKey m raddr with
      | some e => setEntry m raddr { e with lastActivity := now }
      | none => m
    (packet, m1, true)
  else
    (packet, m, false)

/-- What the uplink pump leaves behind: the `(payload, destination)` pairs
it handed to `send_to`, and whether `target_socket_send.close()` ran. -/
structure UplinkExit where
  sent : List (List Nat × SocksAddr)
  sendHalfClosed : Bool
deriving DecidableEq, Repr

/-- The uplink pump (source lines 161–168). `items` is the sequence of
packets the uplink channel yields before `recv()` returns `None` (the
channel closed because the entry, holding the last `Sender`, was removed);
`sendOk` says whether `send_to` succeeds for a packet. The loop ends either
by `recv()` returning `None` or by a `send_to` error, and on both paths the
statement after the loop closes the send half. -/
def uplinkPump (sendOk : UdpPacket → Bool) : List UdpPacket → UplinkExit
  | [] => { sent := [], sendHalfClosed := true }
  | pkt :: rest =>
      if sendOk pkt then
        let r := uplinkPump sendOk rest
        { r with sent := (pkt.data, pkt.dst_addr) :: r.sent }
      else
        { sent := [], sendHalfClosed := true }

/-- The flow worker when `dispatch_datagram` returns an error (source lines
115–121): remove the flow's entry from the table and return; no error value
is produced for the caller of `send`. -/
def workerDispatchFailed (st : NatState) (key : DatagramSource) : NatState :=
  { st with sessions := removeKey st.sessions key }

end NatManager

/-- One call to `NatManager::send`: the optional session hint, the flow key,
the packet, and the instant of the call (the caller-supplied `client_sink`
does not influence the admission path). -/
structure SendCall where
  sess : Option Session
  key : DatagramSource
  pkt : UdpPacket
  now : Nat

/-- Run a sequence of `send` calls, threading the manager state. -/
def runSends : NatState → List SendCall → NatState
  | st, [] => st
  | st, c :: rest => runSends (NatManager.send st c.sess c.key c.pkt c.now).1 rest

/-- The at-most-once discipline of the `Mutex<Option<BoxFuture>>` holding
the reaper future: either the future is still stored and was never spawned,
or it has been `take()`n and spawned exactly once. -/
def ReaperInv (st : NatState) : Prop :=
  (st.timeoutCheckTaskPending = true ∧ st.reaperSpawned = 0) ∨
  (st.timeoutCheckTaskPending = false ∧ st.reaperSpawned = 1)

/-- Sample flow key (127.0.0.1:51000 on listener 0). -/
def sampleKey : DatagramSource :=
  { address := { ip := 2130706433, port := 51000 }, link := 0 }

/-- A second sample flow key, differing from `sampleKey` in the listener. -/
def sampleKey2 : DatagramSource :=
  { address := { ip := 2130706433, port := 51000 }, link := 1 }

/-- Sample packet (b"hi" towards 8.8.8.8:53). -/
def samplePkt : UdpPacket :=
  UdpPacket.new [104, 105] (SocksAddr.ip { ip := 2130706433, port := 51000 })
    (SocksAddr.ip { ip := 134744072, port := 53 })

/-- Sample entry whose uplink queue is full (64 pending packets). -/
def sampleEntryFull : SessionEntry :=
  { queue := List.replicate 64 samplePkt, shutdownId := 7, lastActivity := 100 }

/-- Sample manager state in which `sampleKey` is already admitted. -/
def sampleStateHit : NatState :=
  { sessions := [(sampleKey, { queue := [], shutdownId := 3, lastActivity := 0 })]
    timeoutCheckTaskPending := false
    reaperSpawned := 1
    dispatchAttempts := 1
    nextShutdownId := 4 }

/-! ### Flow-table lemmas -/

@[simp]
theorem keysOf_nil : keysOf [] = [] := rfl

@[simp]
theorem keysOf_cons (kv : DatagramSource × SessionEntry) (m : SessionMap) :
    keysOf (kv :: m) = kv.1 :: keysOf m := rfl

theorem lookup_eq_none_of_not_mem {m : SessionMap} {k : DatagramSource}
    (h : k ∉ keysOf m) : lookupKey m k = none := by
  induction m with
  | nil => rfl
  | cons kv rest ih =>
      simp only [keysOf_cons, List.mem_cons, not_or] at h
      have hk : kv.1 ≠ k := fun hh => h.1 hh.symm
      simp only [lookupKey, if_neg hk]
      exact ih h.2

theorem not_mem_of_lookup_eq_none {m : SessionMap} {k : DatagramSource}
    (h : lookupKey m k = none) : k ∉ keysOf m := by
  induction m with
  | nil => simp
  | cons kv rest ih =>
      by_cases hk : kv.1 = k
      · simp [lookupKey, hk] at h
      · simp only [lookupKey, if_neg hk] at h
        simp only [keysOf_cons, List.mem_cons, not_or]
        exact ⟨fun hh => hk hh.symm, ih h⟩

theorem keysOf_setEntry (m : SessionMap) (k : DatagramSource) (e : SessionEntry) :
    keysOf (setEntry m k e) = keysOf m := by
  induction m with
  | nil => rfl
  | cons kv rest ih =>
      by_cases hk : kv.1 = k
      · simp [setEntry, hk]
      · simp [setEntry, hk, ih]

theorem lookup_setEntry_self {m : SessionMap} {k : DatagramSource} {e : SessionEntry}
    (e' : SessionEntry) (h : lookupKey m k = some e) :
    lookupKey (setEntry m k e') k = some e' := by
  induction m with
  | nil => simp [lookupKey] at h
  | cons kv rest ih =>
      by_cases hk : kv.1 = k
      · simp [setEntry, hk, lookupKey]
      · simp only [lookupKey, if_neg hk] at h
        simp only [setEntry, if_neg hk, lookupKey, if_neg hk]
        exact ih h

theorem lookup_setEntry_ne {k k' : DatagramSource} (m : SessionMap) (e' : SessionEntry)
    (h : k' ≠ k) : lookupKey (setEntry m k e') k' = lookupKey m k' := by
  induction m with
  | nil => rfl
  | cons kv rest ih =>
      by_cases hk : kv.1 = k
      · subst hk
        simp only [setEntry, if_pos rfl, lookupKey, if_neg (Ne.symm h), if_neg h]
      · by_cases hk' : kv.1 = k'
        · simp only [setEntry, if_neg hk, lookupKey, if_pos hk']
        · simp only [setEntry, if_neg hk, lookupKey, if_neg hk']
          exact ih

theorem keysOf_removeKey_sublist (m : SessionMap) (k : DatagramSource) :
    (keysOf (removeKey m k)).Sublist (keysOf m) := by
  induction m with
  | nil => simp [removeKey]
  | cons kv rest ih =>
      by_cases hk : kv.1 = k
      · simp only [removeKey, if_pos hk, keysOf_cons]
        exact (List.sublist_cons_self kv.1 (keysOf rest)).trans (List.Sublist.refl _)
      · simp only [removeKey, if_neg hk, keysOf_cons]
        exact ih.cons₂ kv.1

theorem nodupKeys_removeKey {m : SessionMap} (k : DatagramSource)
    (h : NodupKeys m) : NodupKeys (removeKey m k) :=
  (keysOf_removeKey_sublist m k).nodup h

theorem lookup_removeKey_self {m : SessionMap} {k : DatagramSource}
    (h : NodupKeys m) : lookupKey (removeKey m k) k = none := by
  induction m with
  | nil => rfl
  | cons kv rest ih =>
      have hcons := List.nodup_cons.mp h
      by_cases hk : kv.1 = k
      · simp only [removeKey, if_pos hk]
        exact lookup_eq_none_of_not_mem (hk ▸ hcons.1)
      · simp only [removeKey, if_neg hk, lookupKey, if_neg hk]
        exact ih hcons.2

theorem lookup_removeKey_ne {k k' : DatagramSource} (m : SessionMap)
    (h : k' ≠ k) : lookupKey (removeKey m k) k' = lookupKey m k' := by
  induction m with
  | nil => rfl
  | cons kv rest ih =>
      by_cases hk : kv.1 = k
      · simp only [removeKey, if_pos hk, lookupKey, if_neg (hk.symm ▸ Ne.symm h : kv.1 ≠ k')]
      · by_cases hk' : kv.1 = k'
        · simp only [removeKey, if_neg hk, lookupKey, if_pos hk']
        · simp only [removeKey, if_neg hk, lookupKey, if_neg hk']
          exact ih

theorem keysOf_send_aux (m : SessionMap) (k : DatagramSource) (pkt : UdpPacket)
    (now : Nat) : keysOf (NatManager._send m k pkt now).1 = keysOf m := by
  unfold NatManager._send
  cases h : lookupKey m k with
  | none => rfl
  | some e => simpa using keysOf_setEntry m k _

theorem containsKey_false_iff {m : SessionMap} {k : DatagramSource} :
    containsKey m k = false ↔ lookupKey m k = none := by
  cases h : lookupKey m k <;> simp [containsKey, h]

theorem containsKey_true_iff {m : SessionMap} {k : DatagramSource} :
    containsKey m k = true ↔ ∃ e, lookupKey m k = some e := by
  cases h : lookupKey m k <;> simp [containsKey, h]

/-! ### `add_session` projections -/

theorem add_session_sessions (st : NatState) (key : DatagramSource) (now : Nat) :
    (NatManager.add_session st key now).sessions =
      insertEntry st.sessions key
        { queue := [], shutdownId := st.nextShutdownId, lastActivity := now } := by
  by_cases hp : st.timeoutCheckTaskPending <;> simp [NatManager.add_session, hp]

theorem add_session_dispatchAttempts (st : NatState) (key : DatagramSource) (now : Nat) :
    (NatManager.add_session st key now).dispatchAttempts = st.dispatchAttempts + 1 := by
  by_cases hp : st.timeoutCheckTaskPending <;> simp [NatManager.add_session, hp]

theorem add_session_pending (st : NatState) (key : DatagramSource) (now : Nat) :
    (NatManager.add_session st key now).timeoutCheckTaskPending = false := by
  by_cases hp : st.timeoutCheckTaskPending <;> simp [NatManager.add_session, hp]

theorem add_session_reaperSpawned (st : NatState) (key : DatagramSource) (now : Nat) :
    (NatManager.add_session st key now).reaperSpawned =
      if st.timeoutCheckTaskPending then st.reaperSpawned + 1 else st.reaperSpawned := by
  by_cases hp : st.timeoutCheckTaskPending <;> simp [NatManager.add_session, hp]

/-! ### Claim theorems -/

/-- C1: the claim says every `send` call returns once the packet has been
admitted or dropped, on both the key-present and the key-absent path. In
the code, the `MutexGuard` on `self.sessions` taken at `send`'s entry (line
75) lives until the function returns, yet both paths re-await
`self.sessions.lock()` inside `_send` (line 172); the mutex is not
reentrant, so the nested acquisition is never granted: for every input the
execution of `send` never completes (`sendRun` yields `none`), so no packet
is admitted or dropped. -/
theorem C1_send_never_returns (st : NatState) (sess : Option Session)
    (key : DatagramSource) (pkt : UdpPacket) (now : Nat) :
    NatManager.sendRun st sess key pkt now = none := by
  by_cases hc : containsKey st.sessions key <;>
    simp [NatManager.sendRun, NatManager.lockAcquire, hc]

/-- C2: the claim says the started reaper task repeats its sweep
indefinitely, sleeping 10 seconds between sweeps. The future built in
`NatManager::new` (lines 44–59) has no loop: its complete run performs
exactly one sweep followed by one 10-second sleep and then the task
completes, so only finitely many (namely one) sweeps ever happen. -/
theorem C2_reaper_sweeps_once :
    NatManager.timeoutCheckTaskActions.count NatManager.ReaperAction.sweep = 1 ∧
    NatManager.timeoutCheckTaskActions.length = 2 ∧
    NatManager.timeoutCheckTaskActions =
      [NatManager.ReaperAction.sweep, NatManager.ReaperAction.sleepSecs 10] := by
  decide

/-- C4: when the uplink queue of an existing flow already holds 64 packets,
`_send` drops the packet without blocking — the entry's queue is unchanged —
and still stamps `last_activity` with the current instant; entries of other
keys are untouched. -/
theorem C4_full_queue_drops_and_stamps (m : SessionMap) (key : DatagramSource)
    (pkt : UdpPacket) (now : Nat) (e : SessionEntry)
    (h : lookupKey m key = some e) (hfull : e.queue.length = uplinkCapacity) :
    (NatManager._send m key pkt now).2 = SendOutcome.dropped ∧
    lookupKey (NatManager._send m key pkt now).1 key =
      some { e with lastActivity := now } ∧
    (∀ k', k' ≠ key →
      lookupKey (NatManager._send m key pkt now).1 k' = lookupKey m k') := by
  have htry : e.trySend pkt = (e, false) := by
    simp [SessionEntry.trySend, hfull]
  refine ⟨?_, ?_, ?_⟩
  · simp [NatManager._send, h, htry]
  · simp only [NatManager._send, h, htry]
    exact lookup_setEntry_self _ h
  · intro k' hk'
    simp only [NatManager._send, h, htry]
    exact lookup_setEntry_ne m _ hk'

/-- C4 witness: a concrete table whose single entry has 64 pending packets;
the admission attempt is reported dropped and the stamp is updated. -/
theorem C4_full_queue_drops_and_stamps_witness :
    (NatManager._send [(sampleKey, sampleEntryFull)] sampleKey samplePkt 123).2 =
      SendOutcome.dropped ∧
    lookupKey (NatManager._send [(sampleKey, sampleEntryFull)] sampleKey samplePkt 123).1
      sampleKey = some { sampleEntryFull with lastActivity := 123 } := by
  have h := C4_full_queue_drops_and_stamps [(sampleKey, sampleEntryFull)] sampleKey
    samplePkt 123 sampleEntryFull
    (by simp [lookupKey])
    (by simp [sampleEntryFull, uplinkCapacity])
  exact ⟨h.1, h.2.1⟩

/-- C10: the uplink pump closes the send half of the outbound socket on
every termination path: when the channel is closed (its last `Sender` was
dropped with the removed entry, so `recv()` yields `None` after `items` is
exhausted) and when `send_to` fails; moreover the pairs handed to `send_to`
are exactly the payload/destination pairs of the longest packet prefix on
which `send_to` succeeds. -/
theorem C10_uplink_always_closes (sendOk : UdpPacket → Bool) (items : List UdpPacket) :
    (NatManager.uplinkPump sendOk items).sendHalfClosed = true ∧
    (NatManager.uplinkPump sendOk []).sendHalfClosed = true ∧
    (NatManager.uplinkPump sendOk items).sent =
      (items.takeWhile sendOk).map (fun p => (p.data, p.dst_addr)) := by
  refine ⟨?_, rfl, ?_⟩
  · induction items with
    | nil => rfl
    | cons pkt rest ih =>
        by_cases hp : sendOk pkt <;> simp [NatManager.uplinkPump, hp, ih]
  · induction items with
    | nil => rfl
    | cons pkt rest ih =>
        by_cases hp : sendOk pkt <;>
          simp [NatManager.uplinkPump, List.takeWhile_cons, hp, ih]

/-- Projections of `send`'s result state: the table-lock fields change only
on the key-absent path, where `add_session` may spawn the stored reaper
future. -/
theorem send_reaper_proj (st : NatState) (sess : Option Session) (key : DatagramSource)
    (pkt : UdpPacket) (now : Nat) :
    (NatManager.send st sess key pkt now).1.timeoutCheckTaskPending =
      (if containsKey st.sessions key then st.timeoutCheckTaskPending else false) ∧
    (NatManager.send st sess key pkt now).1.reaperSpawned =
      (if containsKey st.sessions key then st.reaperSpawned
       else if st.timeoutCheckTaskPending then st.reaperSpawned + 1
            else st.reaperSpawned) := by
  by_cases hc : containsKey st.sessions key
  · simp [NatManager.send, hc]
  · simp only [NatManager.send, Bool.not_eq_true] at *
    simp [hc, add_session_pending, add_session_reaperSpawned]

theorem reaperInv_new : ReaperInv NatManager.new :=
  Or.inl ⟨rfl, rfl⟩

theorem reaperInv_send (st : NatState) (sess : Option Session) (key : DatagramSource)
    (pkt : UdpPacket) (now : Nat) (h : ReaperInv st) :
    ReaperInv (NatManager.send st sess key pkt now).1 := by
  obtain ⟨hp, hr⟩ := send_reaper_proj st sess key pkt now
  by_cases hc : containsKey st.sessions key
  · rw [if_pos hc] at hp hr
    rcases h with ⟨h1, h2⟩ | ⟨h1, h2⟩
    · exact Or.inl ⟨hp.trans h1, hr.trans h2⟩
    · exact Or.inr ⟨hp.trans h1, hr.trans h2⟩
  · rw [if_neg hc] at hp hr
    rcases h with ⟨h1, h2⟩ | ⟨h1, h2⟩
    · rw [h1, if_pos rfl, h2] at hr
      exact Or.inr ⟨hp, hr⟩
    · rw [h1] at hr
      simp only [Bool.false_eq_true, if_false] at hr
      exact Or.inr ⟨hp, hr.trans h2⟩

theorem reaperInv_runSends (calls : List SendCall) :
    ∀ st : NatState, ReaperInv st → ReaperInv (runSends st calls) := by
  induction calls with
  | nil => exact fun st h => h
  | cons c rest ih =>
      exact fun st h => ih _ (reaperInv_send st c.sess c.key c.pkt c.now h)

/-- C3: `send` preserves the at-most-one-entry-per-key invariant of the
flow table for any state satisfying it, and a `send` whose key is already
present installs no entry (the key set is unchanged), spawns nothing
(neither a dispatch attempt nor the reaper), and only rewrites the present
entry through the `try_send`-and-stamp path, leaving all other keys'
entries untouched. -/
theorem C3_at_most_one_entry (st : NatState) (sess : Option Session)
    (key : DatagramSource) (pkt : UdpPacket) (now : Nat) (h : NodupKeys st.sessions) :
    NodupKeys (NatManager.send st sess key pkt now).1.sessions ∧
    (containsKey st.sessions key = true →
      keysOf (NatManager.send st sess key pkt now).1.sessions = keysOf st.sessions ∧
      (NatManager.send st sess key pkt now).1.dispatchAttempts = st.dispatchAttempts ∧
      (NatManager.send st sess key pkt now).1.reaperSpawned = st.reaperSpawned ∧
      ∀ e, lookupKey st.sessions key = some e →
        lookupKey (NatManager.send st sess key pkt now).1.sessions key =
          some { (e.trySend pkt).1 with lastActivity := now } ∧
        ∀ k', k' ≠ key →
          lookupKey (NatManager.send st sess key pkt now).1.sessions k' =
            lookupKey st.sessions k') := by
  by_cases hc : containsKey st.sessions key
  · have hsess : (NatManager.send st sess key pkt now).1.sessions =
        (NatManager._send st.sessions key pkt now).1 := by
      simp [NatManager.send, hc]
    refine ⟨?_, fun _ => ⟨?_, ?_, ?_, ?_⟩⟩
    · unfold NodupKeys
      rw [hsess, keysOf_send_aux]
      exact h
    · rw [hsess]
      exact keysOf_send_aux _ _ _ _
    · simp [NatManager.send, hc]
    · simp [NatManager.send, hc]
    · intro e he
      have hm : (NatManager._send st.sessions key pkt now).1 =
          setEntry st.sessions key { (e.trySend pkt).1 with lastActivity := now } := by
        simp [NatManager._send, he]
      rw [hsess, hm]
      exact ⟨lookup_setEntry_self _ he, fun k' hk' => lookup_setEntry_ne _ _ hk'⟩
  · refine ⟨?_, fun hcontra => absurd hcontra hc⟩
    have hn : lookupKey st.sessions key = none :=
      containsKey_false_iff.mp (Bool.not_eq_true _ ▸ hc : containsKey st.sessions key = false)
    have hsess : (NatManager.send st sess key pkt now).1.sessions =
        (NatManager._send (NatManager.add_session st key now).sessions key pkt now).1 := by
      simp [NatManager.send, hc]
    unfold NodupKeys
    rw [hsess, keysOf_send_aux, add_session_sessions]
    have hci : containsKey st.sessions key = false := Bool.not_eq_true _ ▸ hc
    rw [insertEntry, hci]
    simp only [Bool.false_eq_true, if_false, keysOf_cons]
    exact List.nodup_cons.mpr ⟨not_mem_of_lookup_eq_none hn, h⟩

/-- C3 witness: a second `send` for the already-admitted sample key keeps
the invariant and the key set unchanged. -/
theorem C3_at_most_one_entry_witness :
    NodupKeys (NatManager.send sampleStateHit none sampleKey samplePkt 2).1.sessions ∧
    keysOf (NatManager.send sampleStateHit none sampleKey samplePkt 2).1.sessions =
      keysOf sampleStateHit.sessions ∧
    (NatManager.send sampleStateHit none sampleKey samplePkt 2).1.dispatchAttempts =
      sampleStateHit.dispatchAttempts := by
  have h := C3_at_most_one_entry sampleStateHit none sampleKey samplePkt 2
    (by unfold NodupKeys; decide)
  have h2 := h.2 (by decide)
  exact ⟨h.1, h2.1, h2.2.1⟩

/-- C6: after the flow worker's dispatch-failure path runs, no entry for
the key remains in the table (and no other key's entry is affected); the
path produces no error for the caller; and a subsequent `send` for the same
key takes the admission path, triggering exactly one fresh dispatch
attempt. -/
theorem C6_dispatch_fail_cleanup (st : NatState) (key : DatagramSource)
    (h : NodupKeys st.sessions) :
    lookupKey (NatManager.workerDispatchFailed st key).sessions key = none ∧
    (∀ k', k' ≠ key →
      lookupKey (NatManager.workerDispatchFailed st key).sessions k' =
        lookupKey st.sessions k') ∧
    (∀ sess pkt now,
      (NatManager.send (NatManager.workerDispatchFailed st key) sess key pkt
          now).1.dispatchAttempts = st.dispatchAttempts + 1) := by
  have hlook : lookupKey (removeKey st.sessions key) key = none :=
    lookup_removeKey_self h
  refine ⟨hlook, fun k' hk' => lookup_removeKey_ne _ hk', ?_⟩
  intro sess pkt now
  have hc : containsKey (NatManager.workerDispatchFailed st key).sessions key = false :=
    containsKey_false_iff.mpr hlook
  have hseq : (NatManager.send (NatManager.workerDispatchFailed st key) sess key pkt
      now).1.dispatchAttempts =
      (NatManager.add_session (NatManager.workerDispatchFailed st key) key
        now).dispatchAttempts := by
    simp [NatManager.send, hc]
  rw [hseq, add_session_dispatchAttempts]
  rfl

/-- C6 witness: removing the sample key after a dispatch failure leaves no
entry, and the next `send` dispatches afresh. -/
theorem C6_dispatch_fail_cleanup_witness :
    lookupKey (NatManager.workerDispatchFailed sampleStateHit sampleKey).sessions
      sampleKey = none ∧
    (NatManager.send (NatManager.workerDispatchFailed sampleStateHit sampleKey) none
        sampleKey samplePkt 3).1.dispatchAttempts =
      sampleStateHit.dispatchAttempts + 1 := by
  have h := C6_dispatch_fail_cleanup sampleStateHit sampleKey (by unfold NodupKeys; decide)
  exact ⟨h.1, h.2.2 none samplePkt 3⟩

/-- C7: the reaper future exists unspawned in the fresh manager; over any
sequence of `send` calls it is spawned at most once; a `send` whose key is
present never spawns it; the first `send` that admits a new flow while the
future is still stored spawns it and empties the store; and once the store
is empty no `send` ever spawns again. -/
theorem C7_reaper_started_once :
    NatManager.new.reaperSpawned = 0 ∧
    NatManager.new.timeoutCheckTaskPending = true ∧
    (∀ calls : List SendCall, (runSends NatManager.new calls).reaperSpawned ≤ 1) ∧
    (∀ (st : NatState) (sess : Option Session) (key : DatagramSource) (pkt : UdpPacket)
        (now : Nat), containsKey st.sessions key = true →
      (NatManager.send st sess key pkt now).1.reaperSpawned = st.reaperSpawned) ∧
    (∀ (st : NatState) (sess : Option Session) (key : DatagramSource) (pkt : UdpPacket)
        (now : Nat), containsKey st.sessions key = false →
      st.timeoutCheckTaskPending = true →
      (NatManager.send st sess key pkt now).1.reaperSpawned = st.reaperSpawned + 1 ∧
      (NatManager.send st sess key pkt now).1.timeoutCheckTaskPending = false) ∧
    (∀ (st : NatState) (sess : Option Session) (key : DatagramSource) (pkt : UdpPacket)
        (now : Nat), st.timeoutCheckTaskPending = false →
      (NatManager.send st sess key pkt now).1.reaperSpawned = st.reaperSpawned) := by
  refine ⟨rfl, rfl, ?_, ?_, ?_, ?_⟩
  · intro calls
    rcases reaperInv_runSends calls NatManager.new reaperInv_new with ⟨_, h2⟩ | ⟨_, h2⟩ <;>
      simp [h2]
  · intro st sess key pkt now hc
    have hr := (send_reaper_proj st sess key pkt now).2
    rwa [if_pos hc] at hr
  · intro st sess key pkt now hc hpend
    obtain ⟨hp, hr⟩ := send_reaper_proj st sess key pkt now
    have hcn : ¬ (containsKey st.sessions key = true) := by simp [hc]
    rw [if_neg hcn] at hp hr
    rw [hpend, if_pos rfl] at hr
    exact ⟨hr, hp⟩
  · intro st sess key pkt now hpend
    have hr := (send_reaper_proj st sess key pkt now).2
    by_cases hc : containsKey st.sessions key
    · rwa [if_pos hc] at hr
    · rw [if_neg hc, hpend] at hr
      simpa using hr

/-- C7 witness: on the fresh manager the first admitting `send` spawns the
reaper; on a state that already took the future, a hit or a further miss
spawns nothing; any concrete call sequence spawns at most once. -/
theorem C7_reaper_started_once_witness :
    (NatManager.send sampleStateHit none sampleKey samplePkt 1).1.reaperSpawned =
      sampleStateHit.reaperSpawned ∧
    (NatManager.send NatManager.new none sampleKey samplePkt 0).1.reaperSpawned =
      NatManager.new.reaperSpawned + 1 ∧
    (NatManager.send NatManager.new none sampleKey samplePkt 0).1.timeoutCheckTaskPending =
      false ∧
    (NatManager.send sampleStateHit none sampleKey samplePkt 1).1.reaperSpawned =
      sampleStateHit.reaperSpawned ∧
    (runSends NatManager.new [{ sess := none, key := sampleKey, pkt := samplePkt, now := 0 },
      { sess := none, key := sampleKey, pkt := samplePkt, now := 1 }]).reaperSpawned ≤ 1 := by
  have h := C7_reaper_started_once
  have hmiss := h.2.2.2.2.1 NatManager.new none sampleKey samplePkt 0 (by decide) (by decide)
  exact ⟨h.2.2.2.1 sampleStateHit none sampleKey samplePkt 1 (by decide),
    hmiss.1, hmiss.2,
    h.2.2.2.2.2 sampleStateHit none sampleKey samplePkt 1 (by decide),
    h.2.2.1 _⟩

/-- C8: for a downlink datagram of `n` bytes received from `addr`, the
packet handed to the client sink carries exactly the first `n` buffer bytes
as payload, `addr` as source, and the client endpoint of the flow key as
destination; `last_activity` is stamped only when the client-sink send
succeeded, and when the entry has been removed in the interim the stamp is
a no-op; when it is stamped no other key's entry changes. -/
theorem C8_downlink_packet (buf : List Nat) (n : Nat) (addr : SocksAddr)
    (raddr : DatagramSource) (m : SessionMap) (ok : Bool) (now : Nat)
    (h : n ≤ buf.length) :
    ((NatManager.downlinkIteration buf n addr raddr m ok now).1.data = buf.take n ∧
     (NatManager.downlinkIteration buf n addr raddr m ok now).1.data.length = n ∧
     (NatManager.downlinkIteration buf n addr raddr m ok now).1.src_addr = addr ∧
     (NatManager.downlinkIteration buf n addr raddr m ok now).1.dst_addr =
       SocksAddr.ofSocketAddr raddr.address) ∧
    (ok = false → (NatManager.downlinkIteration buf n addr raddr m ok now).2.1 = m) ∧
    (ok = true → lookupKey m raddr = none →
      (NatManager.downlinkIteration buf n addr raddr m ok now).2.1 = m) ∧
    (ok = true → ∀ e, lookupKey m raddr = some e →
      lookupKey (NatManager.downlinkIteration buf n addr raddr m ok now).2.1 raddr =
        some { e with lastActivity := now } ∧
      ∀ k', k' ≠ raddr →
        lookupKey (NatManager.downlinkIteration buf n addr raddr m ok now).2.1 k' =
          lookupKey m k') := by
  have hpkt : (NatManager.downlinkIteration buf n addr raddr m ok now).1 =
      UdpPacket.new (buf.take n) addr (SocksAddr.ofSocketAddr raddr.address) := by
    cases ok <;> simp [NatManager.downlinkIteration]
  refine ⟨?_, ?_, ?_, ?_⟩
  · rw [hpkt]
    refine ⟨rfl, ?_, rfl, rfl⟩
    simp [UdpPacket.new, List.length_take, Nat.min_eq_left h]
  · intro hok
    subst hok
    simp [NatManager.downlinkIteration]
  · intro hok hnone
    subst hok
    simp [NatManager.downlinkIteration, hnone]
  · intro hok e he
    subst hok
    simp only [NatManager.downlinkIteration, he, if_pos trivial]
    exact ⟨lookup_setEntry_self _ he, fun k' hk' => lookup_setEntry_ne _ _ hk'⟩

/-- C8 witness: a concrete 5-byte receive on the sample flow with a
successful sink send; the packet and the stamped entry are as stated. -/
theorem C8_downlink_packet_witness :
    (NatManager.downlinkIteration [1, 2, 3, 4, 5] 2 (SocksAddr.ip { ip := 134744072, port := 53 })
        sampleKey sampleStateHit.sessions true 9).1.data = [1, 2] ∧
    lookupKey (NatManager.downlinkIteration [1, 2, 3, 4, 5] 2
        (SocksAddr.ip { ip := 134744072, port := 53 })
        sampleKey sampleStateHit.sessions true 9).2.1 sampleKey =
      some { queue := [], shutdownId := 3, lastActivity := 9 } := by
  have h := C8_downlink_packet [1, 2, 3, 4, 5] 2 (SocksAddr.ip { ip := 134744072, port := 53 })
    sampleKey sampleStateHit.sessions true 9 (by decide)
  refine ⟨h.1.1, ?_⟩
  have h4 := (h.2.2.2 rfl { queue := [], shutdownId := 3, lastActivity := 0 } (by decide)).1
  exact h4

/-- C9 counterexample: `UdpPacket::new` checks no length bound and `send`
admits packets of any payload length: on a fresh manager, a packet whose
payload has 3001 bytes is admitted (enqueued on the new flow's uplink
queue), violating the claimed 2·MTU = 3000-byte bound for admitted
packets. -/
theorem C9_counterexample :
    (NatManager.send NatManager.new none sampleKey
        (UdpPacket.new (List.replicate 3001 0)
          (SocksAddr.ip { ip := 2130706433, port := 51000 })
          (SocksAddr.ip { ip := 134744072, port := 53 })) 0).2 = SendOutcome.enqueued ∧
    (NatManager.send NatManager.new none sampleKey
        (UdpPacket.new (List.replicate 3001 0)
          (SocksAddr.ip { ip := 2130706433, port := 51000 })
          (SocksAddr.ip { ip := 134744072, port := 53 })) 0).1.sessions =
      [(sampleKey,
        { queue := [UdpPacket.new (List.replicate 3001 0)
            (SocksAddr.ip { ip := 2130706433, port := 51000 })
            (SocksAddr.ip { ip := 134744072, port := 53 })]
          shutdownId := 0
          lastActivity := 0 })] ∧
    3000 < (UdpPacket.new (List.replicate 3001 0)
      (SocksAddr.ip { ip := 2130706433, port := 51000 })
      (SocksAddr.ip { ip := 134744072, port := 53 })).data.length := by
  refine ⟨rfl, rfl, ?_⟩
  show 3000 < (List.replicate 3001 (0 : Nat)).length
  rw [List.length_replicate]
  norm_num

/-- C9 amended: every packet the downlink pump constructs from its
3000-byte receive buffer has payload length at most 2·MTU = 3000 bytes
(packets are immutable values once constructed; packets admitted through
`send`, by contrast, undergo no length check). -/
theorem C9_downlink_packets_bounded (buf : List Nat) (n : Nat) (addr : SocksAddr)
    (raddr : DatagramSource) (m : SessionMap) (ok : Bool) (now : Nat)
    (h : buf.length = NatManager.downlinkBufSize) :
    (NatManager.downlinkIteration buf n addr raddr m ok now).1.data.length ≤ 3000 := by
  have hpkt : (NatManager.downlinkIteration buf n addr raddr m ok now).1 =
      UdpPacket.new (buf.take n) addr (SocksAddr.ofSocketAddr raddr.address) := by
    cases ok <;> simp [NatManager.downlinkIteration]
  rw [hpkt]
  show (buf.take n).length ≤ 3000
  calc (buf.take n).length ≤ buf.length := List.length_take_le' n buf
    _ = 3000 := by rw [h]; rfl

/-- C9 amended witness: a receive of 7 bytes into a full-size buffer yields
a packet within the bound. -/
theorem C9_downlink_packets_bounded_witness :
    (NatManager.downlinkIteration (List.replicate 3000 0) 7
        (SocksAddr.ip { ip := 134744072, port := 53 }) sampleKey [] true 4).1.data.length ≤
      3000 :=
  C9_downlink_packets_bounded (List.replicate 3000 0) 7
    (SocksAddr.ip { ip := 134744072, port := 53 }) sampleKey [] true 4
    (by rw [List.length_replicate]; rfl)

/-! ### Reaper-sweep lemmas -/

/-- The staleness test of the sweep — `as_secs` of the saturating elapsed
duration compared against 30 — holds exactly when at least 30 000 ms have
elapsed (truncation to whole seconds loses nothing at the boundary). -/
theorem isStale_eq (now : Nat) (e : SessionEntry) :
    NatManager.isStale now e = decide (30 * 1000 ≤ now - e.lastActivity) := by
  unfold NatManager.isStale asSecs UDP_SESSION_TIMEOUT
  rw [decide_eq_decide]
  exact Nat.le_div_iff_mul_le (by norm_num)

theorem lookup_cons_self (kv : DatagramSource × SessionEntry) (m : SessionMap) :
    lookupKey (kv :: m) kv.1 = some kv.2 := by
  simp [lookupKey]

theorem removeKey_cons_self (kv : DatagramSource × SessionEntry) (m : SessionMap) :
    removeKey (kv :: m) kv.1 = m := by
  simp [removeKey]

theorem sweepToRemove_cons (kv : DatagramSource × SessionEntry) (m : SessionMap)
    (now : Nat) :
    NatManager.sweepToRemove (kv :: m) now =
      if NatManager.isStale now kv.2 then kv.1 :: NatManager.sweepToRemove m now
      else NatManager.sweepToRemove m now := by
  by_cases hs : NatManager.isStale now kv.2 <;>
    simp [NatManager.sweepToRemove, List.filter_cons, hs]

theorem sweepToRemove_mem_keys (m : SessionMap) (now : Nat) :
    ∀ k ∈ NatManager.sweepToRemove m now, k ∈ keysOf m := by
  intro k hk
  simp only [NatManager.sweepToRemove, List.mem_map] at hk
  obtain ⟨kv, hmem, rfl⟩ := hk
  simp only [keysOf, List.mem_map]
  exact ⟨kv, (List.mem_filter.mp hmem).1, rfl⟩

/-- Removal of keys all different from the head entry's key commutes with
consing that entry onto the table. -/
theorem sweepRemoveFired_skip (kv : DatagramSource × SessionEntry) :
    ∀ (ks : List DatagramSource) (m : SessionMap) (fired : List Nat),
      (∀ k ∈ ks, k ≠ kv.1) →
      NatManager.sweepRemoveFired ks (kv :: m) fired =
        (kv :: (NatManager.sweepRemoveFired ks m fired).1,
         (NatManager.sweepRemoveFired ks m fired).2) := by
  intro ks
  induction ks with
  | nil => intro m fired _; rfl
  | cons k rest ih =>
      intro m fired h
      have hk : kv.1 ≠ k := fun hh => h k (List.mem_cons_self k rest) hh.symm
      have hrest : ∀ k' ∈ rest, k' ≠ kv.1 := fun k' hm => h k' (List.mem_cons_of_mem _ hm)
      simp only [NatManager.sweepRemoveFired, lookupKey, if_neg hk]
      cases hkm : lookupKey m k with
      | some e =>
          simp only [removeKey, if_neg hk]
          exact ih (removeKey m k) (fired ++ [e.shutdownId]) hrest
      | none =>
          exact ih m fired hrest

/-- One sweep over a table with distinct keys equals: keep exactly the
non-stale entries unchanged, and append to the fired list the shutdown ids
of the stale entries, in table order. -/
theorem timeoutCheckSweep_eq (now : Nat) :
    ∀ (m : SessionMap) (fired : List Nat), NodupKeys m →
      NatManager.timeoutCheckSweep m fired now =
        (m.filter (fun kv => !(NatManager.isStale now kv.2)),
         fired ++ (m.filter (fun kv => NatManager.isStale now kv.2)).map
           (fun kv => kv.2.shutdownId)) := by
  intro m
  induction m with
  | nil =>
      intro fired _
      simp [NatManager.timeoutCheckSweep, NatManager.sweepToRemove,
        NatManager.sweepRemoveFired]
  | cons kv rest ih =>
      intro fired h
      have hnodup : (kv.1 :: keysOf rest).Nodup := by
        simpa [NodupKeys] using h
      have hcons := List.nodup_cons.mp hnodup
      unfold NatManager.timeoutCheckSweep
      rw [sweepToRemove_cons]
      by_cases hs : NatManager.isStale now kv.2
      · rw [if_pos hs]
        simp only [NatManager.sweepRemoveFired, lookup_cons_self, removeKey_cons_self]
        have hrec := ih (fired ++ [kv.2.shutdownId]) hcons.2
        unfold NatManager.timeoutCheckSweep at hrec
        rw [hrec]
        simp [List.filter_cons, hs, List.append_assoc]
      · rw [if_neg hs]
        have hne : ∀ k ∈ NatManager.sweepToRemove rest now, k ≠ kv.1 := by
          intro k hk heq
          exact hcons.1 (heq ▸ sweepToRemove_mem_keys rest now k hk)
        rw [sweepRemoveFired_skip kv _ _ _ hne]
        have hrec := ih fired hcons.2
        unfold NatManager.timeoutCheckSweep at hrec
        rw [hrec]
        simp [List.filter_cons, hs]

/-- C5: one reaper sweep, executed over any table state (with the HashMap's
distinct keys) at instant `now`, removes exactly the entries idle for at
least 30 seconds — i.e. with `now − last_activity ≥ 30 000 ms` — leaving
every other entry unchanged in place, and fires precisely the removed
entries' shutdown signals (appending their identities to the fired list);
a failed fire is discarded by the code and invisible here. -/
theorem C5_sweep_removes_exactly_stale (m : SessionMap) (fired : List Nat) (now : Nat)
    (h : NodupKeys m) :
    (NatManager.timeoutCheckSweep m fired now).1 =
      m.filter (fun kv => decide (now - kv.2.lastActivity < 30 * 1000)) ∧
    (NatManager.timeoutCheckSweep m fired now).2 =
      fired ++ (m.filter (fun kv => decide (30 * 1000 ≤ now - kv.2.lastActivity))).map
        (fun kv => kv.2.shutdownId) := by
  have hfun1 : (fun kv : DatagramSource × SessionEntry => !(NatManager.isStale now kv.2)) =
      (fun kv => decide (now - kv.2.lastActivity < 30 * 1000)) := by
    funext kv
    rw [isStale_eq, ← decide_not, decide_eq_decide]
    exact Nat.not_le
  have hfun2 : (fun kv : DatagramSource × SessionEntry => NatManager.isStale now kv.2) =
      (fun kv => decide (30 * 1000 ≤ now - kv.2.lastActivity)) := by
    funext kv
    exact isStale_eq now kv.2
  rw [timeoutCheckSweep_eq now m fired h, hfun1, hfun2]
  exact ⟨rfl, rfl⟩

/-- C5 witness: at `now = 40 s` a sweep over a two-entry table removes the
entry idle since `t = 0` — firing its shutdown signal 3 — and leaves the
recently-stamped entry in place. -/
theorem C5_sweep_removes_exactly_stale_witness :
    (NatManager.timeoutCheckSweep
        [(sampleKey, { queue := [], shutdownId := 3, lastActivity := 0 }),
         (sampleKey2, { queue := [], shutdownId := 5, lastActivity := 35000 })]
        [] 40000).1 =
      [(sampleKey2, { queue := [], shutdownId := 5, lastActivity := 35000 })] ∧
    (NatManager.timeoutCheckSweep
        [(sampleKey, { queue := [], shutdownId := 3, lastActivity := 0 }),
         (sampleKey2, { queue := [], shutdownId := 5, lastActivity := 35000 })]
        [] 40000).2 = [3] := by
  have h := C5_sweep_removes_exactly_stale
    [(sampleKey, { queue := [], shutdownId := 3, lastActivity := 0 }),
     (sampleKey2, { queue := [], shutdownId := 5, lastActivity := 35000 })]
    [] 40000 (by unfold NodupKeys; decide)
  exact ⟨h.1.trans (by rfl), h.2.trans (by rfl)⟩

end NatMgr
